import Mathlib

/-!
Verification of the home-tour-maker planning and assembly engine.

Shallow embedding of the TypeScript sources:
* `src/pipeline/scene-plan.ts` (ScenePlanner)
* `src/pipeline/veo.ts` (VeoClient: poll loop, retry helper, result processing)
* `src/pipeline/kenburns.ts` (KenBurnsGenerator: parameter validation)
* `src/pipeline/assemble.ts` (VideoAssembler: audio mixing)

JavaScript numbers are modelled as rationals (`ℚ`); where NaN/Infinity matter
(the Ken Burns validation) an explicit `JSNum` type is used.  JavaScript `Map`s
(insertion-ordered, unique keys) are modelled as association lists, and
`Array.prototype.sort` (required stable by ES2019) as a stable insertion sort
by the same key, which yields the identical output list.
-/

namespace HomeTour

/-! ## Data model (from `src/types.ts`) -/

structure ImageInput where
  path : String
  room : Option String
  captureTime : Option ℕ
deriving DecidableEq, Repr

inductive SceneType where
  | veo
  | kenburns
deriving DecidableEq, Repr

structure Scene where
  id : String
  room : String
  images : List ImageInput
  duration : ℚ
  type : SceneType
  description : String
  focusPoints : List String
deriving DecidableEq, Repr

structure ScenePlan where
  scenes : List Scene
  totalDuration : ℚ
  veoSegments : ℕ
  kenBurnsSegments : ℕ
deriving DecidableEq, Repr

structure OutputConfig where
  path : String
  targetSeconds : ℚ
deriving DecidableEq, Repr

/-! ## Scene planner options (from `scene-plan.ts`, constructor defaults) -/

structure ScenePlannerOptions where
  preferVeoOverKenBurns : Bool
  maxVeoSegments : ℕ
  minSegmentDuration : ℚ
  maxSegmentDuration : ℚ
  crossfadeDuration : ℚ
deriving DecidableEq, Repr

def defaultPlannerOptions : ScenePlannerOptions :=
  { preferVeoOverKenBurns := true
    maxVeoSegments := 15
    minSegmentDuration := 4
    maxSegmentDuration := 8
    crossfadeDuration := 3/4 }

structure TimingConstraints where
  targetDuration : ℚ
  availableContentTime : ℚ
  idealSegmentDuration : ℚ
  maxVeoSegments : ℕ
  crossfadeTime : ℚ
  roomCount : ℕ
deriving DecidableEq, Repr

/-! ## Stable sort

`Array.prototype.sort` with a numeric-key comparator is required to be stable
(ES2019); any stable ascending sort by the same key produces the same list.
We use a left-fold insertion sort where a newly arriving element is placed
after all existing elements of smaller-or-equal key. -/

def stInsert {α : Type} (key : α → ℕ) (x : α) : List α → List α
  | [] => [x]
  | y :: ys => if key x < key y then x :: y :: ys else y :: stInsert key x ys

def stableSortBy {α : Type} (key : α → ℕ) (l : List α) : List α :=
  l.foldl (fun acc x => stInsert key x acc) []

/-! ## Room groups: JS `Map<string, ImageInput[]>` as an insertion-ordered
association list with unique keys.  `pushTo` mutates (appends to) the value of
the first entry with the given key, matching `Map.get(k).push(img)`. -/

abbrev Groups := List (String × List ImageInput)

def hasKey (gs : Groups) (k : String) : Bool :=
  gs.any (fun p => p.1 == k)

def lookupGroup : Groups → String → Option (List ImageInput)
  | [], _ => none
  | p :: ps, k => if p.1 == k then some p.2 else lookupGroup ps k

def pushTo : Groups → String → ImageInput → Groups
  | [], _, _ => []
  | p :: ps, k, img => if p.1 == k then (p.1, p.2 ++ [img]) :: ps else p :: pushTo ps k img

def deleteKey : Groups → String → Groups
  | [], _ => []
  | p :: ps, k => if p.1 == k then ps else p :: deleteKey ps k

/-! ## groupImagesByRoom (scene-plan.ts lines 52-117) -/

def roomOrder : List String :=
  ["exterior", "entry", "living", "kitchen", "bedroom", "bathroom", "backyard"]

def initialRoomGroups : Groups :=
  roomOrder.map (fun r => (r, [])) ++ [("other", [])]

/-- `const group = roomGroups.get(room) || roomGroups.get('other')!; group.push(image)`:
an existing (possibly empty) array is truthy in JS, so the image lands in the
group named by its room when that key exists, otherwise in `other`. -/
def pushImage (gs : Groups) (img : ImageInput) : Groups :=
  let room := img.room.getD "other"
  if hasKey gs room then pushTo gs room img else pushTo gs "other" img

/-- Remove empty groups except `other`. -/
def removeEmptyGroups (gs : Groups) : Groups :=
  gs.filter (fun p => !p.2.isEmpty || p.1 == "other")

def groupLen (gs : Groups) (n : String) : ℕ :=
  ((lookupGroup gs n).getD []).length

/-- Fallback branch of `redistributeOtherImages`: create/extend a `living`
group (a fresh `Map.set` appends the key at the end of the iteration order). -/
def pushLiving (gs : Groups) (img : ImageInput) : Groups :=
  if hasKey gs "living" then pushTo gs "living" img else gs ++ [("living", [img])]

/-- The distribution loop of `redistributeOtherImages`: `sortedRooms` holds
live references to the group arrays, so each re-sort keys on the *current*
group sizes; we model it as a list of room names re-sorted (stably) by the
current size after every push. -/
def redistGo : Groups → List String → List ImageInput → Groups
  | gs, _, [] => gs
  | gs, [], img :: rest => redistGo (pushLiving gs img) [] rest
  | gs, r :: rs, img :: rest =>
      let gs' := pushTo gs r img
      redistGo gs' (stableSortBy (groupLen gs') (r :: rs)) rest

def redistributeOtherImages (otherImages : List ImageInput) (gs : Groups) : Groups :=
  let sortedRooms :=
    (stableSortBy (fun p => p.2.length)
      (gs.filter (fun p => p.1 != "other" && !p.2.isEmpty))).map Prod.fst
  redistGo gs sortedRooms otherImages

/-- `groupImagesByRoom`: in the source, `other` is deleted after
redistribution; redistribution never targets nor reads `other`, and the
fallback `living` group is inserted after it, so deleting `other` first yields
the same final map. -/
def groupImagesByRoom (images : List ImageInput) : Groups :=
  let gs := removeEmptyGroups (images.foldl pushImage initialRoomGroups)
  let otherImages := (lookupGroup gs "other").getD []
  if otherImages.isEmpty then gs
  else redistributeOtherImages otherImages (deleteKey gs "other")

/-! ## calculateTiming (scene-plan.ts lines 119-142) -/

def calculateTiming (opts : ScenePlannerOptions) (outputConfig : OutputConfig)
    (roomCount : ℕ) : TimingConstraints :=
  let estimatedSegments : ℚ := min ((roomCount : ℚ) + 2) ((opts.maxVeoSegments : ℚ) * (3/2))
  let crossfadeTime : ℚ := max 0 (estimatedSegments - 1) * opts.crossfadeDuration
  let availableContentTime : ℚ := outputConfig.targetSeconds - crossfadeTime
  let idealSegmentDuration : ℚ :=
    max opts.minSegmentDuration
      (min opts.maxSegmentDuration (availableContentTime / (roomCount : ℚ)))
  { targetDuration := outputConfig.targetSeconds
    availableContentTime := availableContentTime
    idealSegmentDuration := idealSegmentDuration
    maxVeoSegments := opts.maxVeoSegments
    crossfadeTime := crossfadeTime
    roomCount := roomCount }

/-! ## Scene descriptions and focus points (static tables) -/

def sceneDescriptions (room : String) : List String :=
  if room == "exterior" then ["Stunning curb appeal and architectural details"]
  else if room == "entry" then ["Welcoming entrance with elegant details"]
  else if room == "living" then
    ["Spacious living area with natural light", "Comfortable living space with great flow"]
  else if room == "kitchen" then
    ["Chef\x27s kitchen with premium finishes", "Kitchen island and cooking area"]
  else if room == "bedroom" then
    ["Peaceful bedroom retreat", "Master suite with ample space"]
  else if room == "bathroom" then ["Spa-like bathroom with luxury finishes"]
  else if room == "backyard" then ["Private outdoor entertainment space"]
  else ["Beautiful space with attention to detail"]

def generateSceneDescription (room : String) (sceneIndex : ℕ) (totalScenes : ℕ) : String :=
  let ds := sceneDescriptions room
  if totalScenes == 1 then ds.headD ""
  else ds.getD (sceneIndex % ds.length) ""

def focusPointTable (room : String) : List (List String) :=
  if room == "exterior" then [["architectural facade", "landscaping", "entrance appeal"]]
  else if room == "entry" then [["entryway details", "lighting fixtures", "flooring transition"]]
  else if room == "living" then
    [["seating arrangement", "natural light", "room flow"],
     ["fireplace area", "built-ins", "ceiling details"]]
  else if room == "kitchen" then
    [["island centerpiece", "appliance suite", "countertop materials"],
     ["cabinet details", "backsplash design", "lighting features"]]
  else if room == "bedroom" then
    [["bed placement", "window views", "closet access"],
     ["sitting area", "built-in features", "natural light"]]
  else if room == "bathroom" then [["vanity details", "shower/tub area", "fixture quality"]]
  else if room == "backyard" then
    [["outdoor living space", "landscaping features", "privacy elements"]]
  else [["key features", "design details", "spatial flow"]]

def generateFocusPoints (room : String) (sceneIndex : ℕ) : List String :=
  let fs := focusPointTable room
  fs.getD (sceneIndex % fs.length) []

/-! ## createScenes / createRoomScenes (scene-plan.ts lines 144-202) -/

def createRoomScenes (room : String) (images : List ImageInput)
    (timing : TimingConstraints) : List Scene :=
  if images.length > 4 && room != "exterior" then
    let scenesNeeded := (images.length + 2) / 3
    let imagesPerScene := (images.length + scenesNeeded - 1) / scenesNeeded
    (List.range scenesNeeded).map (fun i =>
      { id := room ++ "_" ++ toString (i + 1)
        room := room
        images := (images.drop (i * imagesPerScene)).take imagesPerScene
        duration := timing.idealSegmentDuration
        type := SceneType.veo
        description := generateSceneDescription room i scenesNeeded
        focusPoints := generateFocusPoints room i })
  else
    [{ id := room
       room := room
       images := images
       duration := timing.idealSegmentDuration
       type := SceneType.veo
       description := generateSceneDescription room 0 1
       focusPoints := generateFocusPoints room 0 }]

def createScenes (gs : Groups) (timing : TimingConstraints) : List Scene :=
  (gs.map (fun p => if p.2.isEmpty then [] else createRoomScenes p.1 p.2 timing)).flatten

/-! ## optimizeScenes (scene-plan.ts lines 204-282) -/

def veoPriority : List String :=
  ["exterior", "living", "kitchen", "bedroom", "entry", "bathroom", "backyard"]

def indexOfRoom : List String → String → Option ℕ
  | [], _ => none
  | r :: rs, room => if r == room then some 0 else (indexOfRoom rs room).map (· + 1)

/-- `veoPriority.indexOf(room)`, with `-1` mapped to `999` as in the comparator. -/
def priorityIdx (room : String) : ℕ :=
  (indexOfRoom veoPriority room).getD 999

/-- First pass of `optimizeScenes`: walk the sorted scenes assigning `veo`
while the cap allows (and `preferVeoOverKenBurns` holds), otherwise `kenburns`
with the duration capped at 6; accumulates the running total duration over the
*updated* durations, exactly as the loop does. -/
def assignTypes (opts : ScenePlannerOptions) : List Scene → ℕ → List Scene × ℕ × ℚ
  | [], used => ([], used, 0)
  | s :: ss, used =>
    if used < opts.maxVeoSegments && opts.preferVeoOverKenBurns then
      let s' := { s with type := SceneType.veo }
      let r := assignTypes opts ss (used + 1)
      (s' :: r.1, r.2.1, s'.duration + r.2.2)
    else
      let s' := { s with type := SceneType.kenburns, duration := min s.duration 6 }
      let r := assignTypes opts ss used
      (s' :: r.1, r.2.1, s'.duration + r.2.2)

def adjustSceneDurations (scenes : List Scene) (targetDuration : ℚ) : List Scene :=
  let currentDuration := (scenes.map Scene.duration).sum
  let adjustmentFactor := targetDuration / currentDuration
  scenes.map (fun s =>
    if s.type = SceneType.veo then
      { s with duration := max 4 (min 8 (s.duration * adjustmentFactor)) }
    else
      { s with duration := max 3 (min 10 (s.duration * adjustmentFactor)) })

def defaultImage : ImageInput := { path := "", room := none, captureTime := none }

def mkFillerScene (src : Scene) (additionalTime : ℚ) : Scene :=
  { id := src.id ++ "_filler"
    room := src.room
    images := [src.images.getLastD defaultImage]
    duration := min additionalTime 6
    type := SceneType.kenburns
    description := "Additional view of " ++ src.room
    focusPoints := ["architectural details", "ambiance"] }

def addFillerScenes (scenes : List Scene) (additionalTime : ℚ) : List Scene :=
  let multi := scenes.filter (fun s => s.images.length > 1)
  match multi with
  | [] => scenes
  | src :: _ => if additionalTime > 3 then scenes ++ [mkFillerScene src additionalTime] else scenes

/-- The running `totalDuration` after the first pass of `optimizeScenes`.
It is *not* recomputed after `adjustSceneDurations`, so both the filler
condition and the filler size use this stale (pre-adjustment) sum, exactly as
in the source. -/
def preAdjustTotal (opts : ScenePlannerOptions) (scenes : List Scene) : ℚ :=
  (assignTypes opts (stableSortBy (fun s => priorityIdx s.room) scenes) 0).2.2

/-- Passes one and two of `optimizeScenes`: sort by Veo priority, assign
techniques under the cap, then rescale durations towards the available
content time (clamped per technique) when the running sum differs from it. -/
def optimizedCore (opts : ScenePlannerOptions) (scenes : List Scene)
    (timing : TimingConstraints) : List Scene :=
  let sortedScenes := stableSortBy (fun s => priorityIdx s.room) scenes
  let r := assignTypes opts sortedScenes 0
  if r.2.2 ≠ timing.availableContentTime then
    adjustSceneDurations r.1 timing.availableContentTime
  else r.1

/-- `optimizeScenes` = passes one and two, then the filler pass keyed on the
stale pre-adjustment total. -/
def optimizeScenes (opts : ScenePlannerOptions) (scenes : List Scene)
    (timing : TimingConstraints) : List Scene :=
  if preAdjustTotal opts scenes < timing.availableContentTime * (19/20) then
    addFillerScenes (optimizedCore opts scenes timing)
      (timing.availableContentTime - preAdjustTotal opts scenes)
  else optimizedCore opts scenes timing

/-! ## buildScenePlan / planScenes (scene-plan.ts lines 26-50, 336-347) -/

def buildScenePlan (scenes : List Scene) : ScenePlan :=
  { scenes := scenes
    totalDuration := (scenes.map Scene.duration).sum
    veoSegments := (scenes.filter (fun s => s.type = SceneType.veo)).length
    kenBurnsSegments := (scenes.filter (fun s => s.type = SceneType.kenburns)).length }

def planScenesWith (opts : ScenePlannerOptions) (images : List ImageInput)
    (outputConfig : OutputConfig) : ScenePlan :=
  let roomGroups := groupImagesByRoom images
  let timing := calculateTiming opts outputConfig roomGroups.length
  buildScenePlan (optimizeScenes opts (createScenes roomGroups timing) timing)

def planScenes (images : List ImageInput) (outputConfig : OutputConfig) : ScenePlan :=
  planScenesWith defaultPlannerOptions images outputConfig

/-! ## VeoClient (from `src/pipeline/veo.ts`)

The network is modelled as a stream of replies: `pollReplies n` is the
service's answer to the `n`-th status poll (0-based), and the submission
outcome is a single `SubmitReply`.  Delays are represented by the rational
millisecond values the code computes. -/

structure OpError where
  code : ℤ
  message : String
deriving DecidableEq, Repr

structure VideoEntry where
  gcsUri : Option String
deriving DecidableEq, Repr

/-- A legacy `predictions[i]`: `videoUri` or nested `video.gcsUri`. -/
structure PredEntry where
  videoUri : Option String
  videoGcsUri : Option String
deriving DecidableEq, Repr

structure OpResponse where
  videos : List VideoEntry
  predictions : List PredEntry
deriving DecidableEq, Repr

structure VeoOperation where
  name : String
  done : Bool
  response : Option OpResponse
  error : Option OpError
deriving DecidableEq, Repr

inductive PollReply where
  | httpError (status : ℕ)
  | ok (op : VeoOperation)
deriving DecidableEq, Repr

inductive VeoFailure where
  | submitFailed (status : ℕ) (body : String)
  | pollHttpFailed (status : ℕ)
  | operationFailed (message : String)
  | timedOut
  | noVideoGcsUri
  | noVideoUri
  | noVideosOrPredictions
deriving DecidableEq, Repr

/-- Base backoff before the next poll after attempt number `attempt`
(the counter is incremented before the fetch, so the first delay uses
`attempt = 1`): `Math.min(1000 * Math.pow(1.5, attempts), 30000)`. -/
def pollBaseDelay (attempt : ℕ) : ℚ :=
  min (1000 * (3/2 : ℚ) ^ attempt) 30000

/-- The delay actually awaited: base plus `Math.random() * 1000` jitter. -/
def pollDelayWithJitter (attempt : ℕ) (jitter : ℚ) : ℚ :=
  pollBaseDelay attempt + jitter

/-- The poll loop body (`while (attempts < maxAttempts)`); `fuel` is the
number of attempts still allowed and `attempts` the number already made.
The second component of the result is the total number of poll requests
issued. -/
def pollGo (replies : ℕ → PollReply) : ℕ → ℕ → Except VeoFailure VeoOperation × ℕ
  | 0, attempts => (Except.error VeoFailure.timedOut, attempts)
  | fuel + 1, attempts =>
    match replies attempts with
    | PollReply.httpError s => (Except.error (VeoFailure.pollHttpFailed s), attempts + 1)
    | PollReply.ok op =>
      if op.done then
        match op.error with
        | some e => (Except.error (VeoFailure.operationFailed e.message), attempts + 1)
        | none => (Except.ok op, attempts + 1)
      else pollGo replies fuel (attempts + 1)

def pollOperation (replies : ℕ → PollReply) (maxAttempts : ℕ) :
    Except VeoFailure VeoOperation × ℕ :=
  pollGo replies maxAttempts 0

/-- The fields of `VeoParams` the controller logic reads. -/
structure VeoParams where
  duration : ℚ
  prompt : String
deriving DecidableEq, Repr

/-- The download and last-frame extraction are abstracted: the result carries
the resolved source URI and the requested duration (the source returns
`duration: params.duration`). -/
structure VeoResult where
  videoGcsUri : String
  duration : ℚ
deriving DecidableEq, Repr

/-- `processResult`: prefer the newer `videos` shape, fall back to the legacy
`predictions` shape (`videoUri`, then `video.gcsUri`), otherwise fail. -/
def processResult (operation : VeoOperation) (params : VeoParams) :
    Except VeoFailure VeoResult :=
  match operation.response with
  | some resp =>
    match resp.videos.head? with
    | some v =>
      match v.gcsUri with
      | some uri => Except.ok { videoGcsUri := uri, duration := params.duration }
      | none => Except.error VeoFailure.noVideoGcsUri
    | none =>
      match resp.predictions.head? with
      | some pred =>
        match pred.videoUri with
        | some uri => Except.ok { videoGcsUri := uri, duration := params.duration }
        | none =>
          match pred.videoGcsUri with
          | some uri => Except.ok { videoGcsUri := uri, duration := params.duration }
          | none => Except.error VeoFailure.noVideoUri
      | none => Except.error VeoFailure.noVideosOrPredictions
  | none => Except.error VeoFailure.noVideosOrPredictions

inductive SubmitReply where
  | httpError (status : ℕ) (body : String)
  | accepted (op : VeoOperation)
deriving DecidableEq, Repr

/-- `generateClip` issues exactly one submission request (`fetch` at lines
229-241 of veo.ts); there is no retry wrapper around it.  On a non-ok HTTP
response it throws at once; otherwise it polls (`maxAttempts = 60`) and then
processes the result. -/
def generateClip (submit : SubmitReply) (pollReplies : ℕ → PollReply)
    (params : VeoParams) : Except VeoFailure VeoResult :=
  match submit with
  | SubmitReply.httpError s body => Except.error (VeoFailure.submitFailed s body)
  | SubmitReply.accepted _op =>
    match (pollOperation pollReplies 60).1 with
    | Except.error e => Except.error e
    | Except.ok doneOp => processResult doneOp params

/-- Number of submission requests `generateClip` makes, regardless of the
outcome: the `fetch` is executed once, unconditionally. -/
def submissionAttempts : ℕ := 1

/-- Does `pat` match at the head of the character list? -/
def leadingMatch : List Char → List Char → Bool
  | [], _ => true
  | _ :: _, [] => false
  | p :: ps, c :: cs => p == c && leadingMatch ps cs

/-- Substring search over character lists. -/
def containsSub (pat : List Char) : List Char → Bool
  | [] => pat.isEmpty
  | c :: rest => leadingMatch pat (c :: rest) || containsSub pat rest

/-- `error.message.includes(pat)`. -/
def containsSubstr (s pat : String) : Bool :=
  containsSub pat.data s.data

/-- The non-retryable message classes of `withRetry`. -/
def nonRetryableMessage (e : String) : Bool :=
  containsSubstr e "quota" || containsSubstr e "permission" || containsSubstr e "invalid"

/-- Backoff of `withRetry` before re-running after attempt `attempt`:
`baseDelay * Math.pow(2, attempt - 1)` (plus jitter up to 1000ms). -/
def retryBaseDelay (baseDelay : ℚ) (attempt : ℕ) : ℚ :=
  baseDelay * 2 ^ (attempt - 1)

/-- The loop of `withRetry` (veo.ts lines 414-446): `outcomes n` is what the
wrapped operation would do on its `n`-th run (0-based).  Returns the result
together with the number of attempts performed. -/
def withRetryGo {α : Type} (outcomes : ℕ → Except String α) (maxRetries : ℕ) :
    ℕ → ℕ → Except String α × ℕ
  | 0, attempt => (Except.error "", attempt - 1)
  | fuel + 1, attempt =>
    match outcomes (attempt - 1) with
    | Except.ok v => (Except.ok v, attempt)
    | Except.error e =>
      if nonRetryableMessage e then (Except.error e, attempt)
      else if attempt < maxRetries then withRetryGo outcomes maxRetries fuel (attempt + 1)
      else (Except.error e, attempt)

def withRetry {α : Type} (outcomes : ℕ → Except String α) (maxRetries : ℕ) :
    Except String α × ℕ :=
  withRetryGo outcomes maxRetries maxRetries 1

/-! ## KenBurnsGenerator (from `src/pipeline/kenburns.ts`)

JS numbers appear here with their NaN/Infinity behaviour, since the
validation tests `Number.isFinite`. -/

inductive JSNum where
  | nan
  | posInf
  | negInf
  | num (q : ℚ)
deriving DecidableEq, Repr

def isFiniteNum : JSNum → Bool
  | JSNum.num _ => true
  | _ => false

/-- JS `x <= 0` (false for NaN and Infinity, true for -Infinity). -/
def leZeroNum : JSNum → Bool
  | JSNum.nan => false
  | JSNum.posInf => false
  | JSNum.negInf => true
  | JSNum.num q => q ≤ 0

/-- `!Number.isFinite(x) || x <= 0`: the rejection test of `buildFilter`. -/
def invalidParamNum (x : JSNum) : Bool :=
  !isFiniteNum x || leZeroNum x

inductive ZoomDirection where
  | zoomIn
  | zoomOut
deriving DecidableEq, Repr

inductive PanDirection where
  | left
  | right
  | up
  | down
  | none
deriving DecidableEq, Repr

structure ZoomPair where
  startZoom : ℚ
  endZoom : ℚ
deriving DecidableEq, Repr

def calculateZoom : ZoomDirection → ZoomPair
  | ZoomDirection.zoomIn => { startZoom := 1, endZoom := 23/20 }
  | ZoomDirection.zoomOut => { startZoom := 23/20, endZoom := 1 }

/-- Crop-offset expressions emitted by `calculatePan` (ffmpeg expressions,
kept as the literal strings the source builds with `panAmount = 0.15`). -/
structure PanExprs where
  startX : String
  startY : String
  endX : String
  endY : String
deriving DecidableEq, Repr

def centerXExpr : String := "(iw-iw/zoom)/2"
def centerYExpr : String := "(ih-ih/zoom)/2"

def calculatePan : PanDirection → PanExprs
  | PanDirection.left =>
    { startX := "(iw-iw/zoom)*0.15", startY := centerYExpr
      endX := "(iw-iw/zoom)*(1-0.15)", endY := centerYExpr }
  | PanDirection.right =>
    { startX := "(iw-iw/zoom)*(1-0.15)", startY := centerYExpr
      endX := "(iw-iw/zoom)*0.15", endY := centerYExpr }
  | PanDirection.up =>
    { startX := centerXExpr, startY := "(ih-ih/zoom)*0.15"
      endX := centerXExpr, endY := "(ih-ih/zoom)*(1-0.15)" }
  | PanDirection.down =>
    { startX := centerXExpr, startY := "(ih-ih/zoom)*(1-0.15)"
      endX := centerXExpr, endY := "(ih-ih/zoom)*0.15" }
  | PanDirection.none =>
    { startX := centerXExpr, startY := centerYExpr
      endX := centerXExpr, endY := centerYExpr }

structure KenBurnsParams where
  imagePath : String
  outputPath : String
  duration : JSNum
  width : JSNum
  height : JSNum
  zoomDirection : Option ZoomDirection
  panDirection : Option PanDirection
deriving DecidableEq, Repr

inductive KBError where
  | inputNotFound (path : String)
  | invalidParameters (what : String)
  | generationFailed (message : String)
deriving DecidableEq, Repr

/-- The final filter string of `buildFilter` is scale-then-pad to the target
dimensions (the computed zoom/pan values do not flow into it), represented
structurally. -/
structure KBFilter where
  width : JSNum
  height : JSNum
deriving DecidableEq, Repr

/-- `buildFilter`: validates duration, then width/height, then fps — each
must be finite and positive — before building the filter. -/
def buildFilter (params : KenBurnsParams) (fps : JSNum) : Except KBError KBFilter :=
  if invalidParamNum params.duration then
    Except.error (KBError.invalidParameters "duration")
  else if invalidParamNum params.width || invalidParamNum params.height then
    Except.error (KBError.invalidParameters "dimensions")
  else if invalidParamNum fps then
    Except.error (KBError.invalidParameters "fps")
  else
    let _zoom := calculateZoom (params.zoomDirection.getD ZoomDirection.zoomIn)
    let _pan := calculatePan (params.panDirection.getD PanDirection.none)
    Except.ok { width := params.width, height := params.height }

/-- The external process invocation `generateKenBurns` would start, as data. -/
structure FFmpegJob where
  input : String
  loopInput : Bool
  inputDuration : JSNum
  filter : KBFilter
  fps : JSNum
  output : String
deriving DecidableEq, Repr

/-- `generateKenBurns`: checks the input file exists, then builds (and
thereby validates) the filter; only a successful validation yields a process
invocation. -/
def generateKenBurns (imageExists : Bool) (params : KenBurnsParams) (fps : JSNum) :
    Except KBError FFmpegJob :=
  if !imageExists then Except.error (KBError.inputNotFound params.imagePath)
  else
    match buildFilter params fps with
    | Except.error e => Except.error e
    | Except.ok f =>
      Except.ok { input := params.imagePath, loopInput := true
                  inputDuration := params.duration, filter := f
                  fps := fps, output := params.outputPath }

/-! ## VideoAssembler audio handling (from `src/pipeline/assemble.ts`) -/

inductive AudioTrackType where
  | voiceover
  | music
deriving DecidableEq, Repr

structure AudioTrack where
  path : String
  type : AudioTrackType
  volume : ℚ
  startTime : ℚ
  duration : ℚ
deriving DecidableEq, Repr

/-- `Math.round` for a finite value. -/
def jsRound (q : ℚ) : ℤ := ⌊q + 1/2⌋

/-- The per-track filter chain built by `buildAudioMixFilter`: a `volume=`
stage only when `track.volume !== 1.0`, an `adelay=` stage only when
`track.startTime > 0` (delay in whole milliseconds). -/
structure TrackChain where
  volumeFilter : Option ℚ
  adelayMs : Option ℤ
deriving DecidableEq, Repr

def trackChain (t : AudioTrack) : TrackChain :=
  { volumeFilter := if t.volume ≠ 1 then some t.volume else none
    adelayMs := if t.startTime > 0 then some (jsRound (t.startTime * 1000)) else none }

inductive AmixDurationPolicy where
  | longest
deriving DecidableEq, Repr

structure AudioMixFilter where
  chains : List TrackChain
  amixInputs : ℕ
  amixDuration : AmixDurationPolicy
deriving DecidableEq, Repr

def buildAudioMixFilter (audioTracks : List AudioTrack) : AudioMixFilter :=
  { chains := audioTracks.map trackChain
    amixInputs := audioTracks.length
    amixDuration := AmixDurationPolicy.longest }

inductive AudioMixResult where
  | noAudio
  | single (path : String)
  | mixed (filter : AudioMixFilter)
deriving DecidableEq, Repr

def defaultAudioTrack : AudioTrack :=
  { path := "", type := AudioTrackType.music, volume := 0, startTime := 0, duration := 0 }

/-- `createAudioMix`: `''` for no tracks, the single track's own path for one
track, an `amix` of per-track chains for two or more. -/
def createAudioMix (audioTracks : List AudioTrack) : AudioMixResult :=
  if audioTracks.length = 0 then AudioMixResult.noAudio
  else if audioTracks.length = 1 then
    AudioMixResult.single (audioTracks.headD defaultAudioTrack).path
  else AudioMixResult.mixed (buildAudioMixFilter audioTracks)

/-- The path string `createAudioMix` actually returns (`''` means no audio). -/
def createAudioMixPath (audioTracks : List AudioTrack) (mixedAudioPath : String) : String :=
  match createAudioMix audioTracks with
  | AudioMixResult.noAudio => ""
  | AudioMixResult.single p => p
  | AudioMixResult.mixed _ => mixedAudioPath

structure AudioEncoding where
  inputPath : String
  codec : String
  bitrate : String
deriving DecidableEq, Repr

/-- The final mux command: video stream copied; audio input present and
re-encoded only when `audioPath` is non-empty, otherwise `noAudio()` — no
audio stream at all. -/
structure FinalMux where
  videoCodecCopy : Bool
  audio : Option AudioEncoding
deriving DecidableEq, Repr

def combineVideoAndAudio (audioPath : String) : FinalMux :=
  if audioPath ≠ "" then
    { videoCodecCopy := true
      audio := some { inputPath := audioPath, codec := "aac", bitrate := "192k" } }
  else { videoCodecCopy := true, audio := none }

/-- Effective gain of a chain (an absent `volume=` stage leaves gain 1). -/
def effVolume (c : TrackChain) : ℚ := c.volumeFilter.getD 1

/-- Effective delay of a chain in milliseconds (absent `adelay=` is 0). -/
def effDelayMs (c : TrackChain) : ℤ := c.adelayMs.getD 0

/-- Semantics of the `amix` `duration=` option: `longest` makes the mix as
long as the longest input. -/
def amixOutputDuration (p : AmixDurationPolicy) (inputDurations : List ℚ) : ℚ :=
  match p with
  | AmixDurationPolicy.longest => inputDurations.foldr max 0

/-- Multiset of all images held by a list of groups. -/
def groupsBag (gs : Groups) : Multiset ImageInput :=
  (((gs.map Prod.snd).flatten : List ImageInput) : Multiset ImageInput)

/-- Multiset of all images referenced by a list of scenes. -/
def sceneBag (l : List Scene) : Multiset ImageInput :=
  (((l.map Scene.images).flatten : List ImageInput) : Multiset ImageInput)


/-! ## Concrete inputs used by the claim evaluations -/

def sampleImage (p : String) (r : String) : ImageInput :=
  { path := p, room := some r, captureTime := none }

/-- The scenario of spec section 8: 14 images across the 7 known rooms. -/
def specScenarioImages : List ImageInput :=
  [sampleImage "e1.jpg" "exterior", sampleImage "e2.jpg" "exterior",
   sampleImage "n1.jpg" "entry", sampleImage "n2.jpg" "entry",
   sampleImage "l1.jpg" "living", sampleImage "l2.jpg" "living",
   sampleImage "k1.jpg" "kitchen", sampleImage "k2.jpg" "kitchen",
   sampleImage "b1.jpg" "bedroom", sampleImage "b2.jpg" "bedroom",
   sampleImage "t1.jpg" "bathroom", sampleImage "t2.jpg" "bathroom",
   sampleImage "y1.jpg" "backyard", sampleImage "y2.jpg" "backyard"]

def specScenarioConfig : OutputConfig := { path := "tour.mp4", targetSeconds := 90 }

def twoLivingImages : List ImageInput :=
  [sampleImage "a.jpg" "living", sampleImage "b.jpg" "living"]

def bedroomEntryImages : List ImageInput :=
  [sampleImage "a.jpg" "bedroom", sampleImage "b.jpg" "bedroom", sampleImage "c.jpg" "entry"]

def longTargetConfig : OutputConfig := { path := "tour.mp4", targetSeconds := 100 }

def voiceTrack : AudioTrack :=
  { path := "voice.mp3", type := AudioTrackType.voiceover, volume := 1
    startTime := 0, duration := 90 }

def musicTrack : AudioTrack :=
  { path := "music.mp3", type := AudioTrackType.music, volume := 3/10
    startTime := 0, duration := 90 }

/-! # Lemmas -/

/-! ## Stable sort -/

theorem stInsert_coe {α : Type} (key : α → ℕ) (x : α) (l : List α) :
    ((stInsert key x l : List α) : Multiset α) = x ::ₘ (l : Multiset α) := by
  induction l with
  | nil => rfl
  | cons y ys ih =>
    by_cases h : key x < key y
    · simp [stInsert, h]
    · simp only [stInsert, if_neg h, ← Multiset.cons_coe, ih]
      exact Multiset.cons_swap y x ys

theorem mem_stInsert {α : Type} (key : α → ℕ) (x a : α) (l : List α) :
    a ∈ stInsert key x l ↔ a = x ∨ a ∈ l := by
  have h := stInsert_coe key x l
  have : a ∈ ((stInsert key x l : List α) : Multiset α) ↔ a ∈ x ::ₘ (l : Multiset α) := by
    rw [h]
  simpa [Multiset.mem_cons] using this

theorem foldl_stInsert_coe {α : Type} (key : α → ℕ) (l acc : List α) :
    ((l.foldl (fun acc x => stInsert key x acc) acc : List α) : Multiset α) =
      (acc : Multiset α) + (l : Multiset α) := by
  induction l generalizing acc with
  | nil => simp
  | cons x xs ih =>
    simp only [List.foldl_cons, ih, stInsert_coe, ← Multiset.cons_coe]
    simp [Multiset.cons_swap]
    exact List.perm_middle.symm

theorem stableSortBy_coe {α : Type} (key : α → ℕ) (l : List α) :
    ((stableSortBy key l : List α) : Multiset α) = (l : Multiset α) := by
  simpa [stableSortBy] using foldl_stInsert_coe key l []

theorem mem_stableSortBy {α : Type} (key : α → ℕ) (a : α) (l : List α) :
    a ∈ stableSortBy key l ↔ a ∈ l := by
  have h := stableSortBy_coe key l
  have : a ∈ ((stableSortBy key l : List α) : Multiset α) ↔ a ∈ (l : Multiset α) := by rw [h]
  simpa using this

theorem pairwise_stInsert {α : Type} (key : α → ℕ) (x : α) (l : List α)
    (h : l.Pairwise (fun a b => key a ≤ key b)) :
    (stInsert key x l).Pairwise (fun a b => key a ≤ key b) := by
  induction l with
  | nil => simp [stInsert]
  | cons y ys ih =>
    rcases List.pairwise_cons.mp h with ⟨hy, hys⟩
    by_cases hlt : key x < key y
    · simp only [stInsert, if_pos hlt]
      refine List.Pairwise.cons ?_ h
      intro z hz
      rcases List.mem_cons.mp hz with rfl | hz'
      · exact Nat.le_of_lt hlt
      · exact Nat.le_trans (Nat.le_of_lt hlt) (hy z hz')
    · simp only [stInsert, if_neg hlt]
      refine List.Pairwise.cons ?_ (ih hys)
      intro z hz
      rcases (mem_stInsert key x z ys).mp hz with rfl | hz'
      · exact Nat.le_of_not_lt hlt
      · exact hy z hz'

theorem pairwise_stableSortBy {α : Type} (key : α → ℕ) (l : List α) :
    (stableSortBy key l).Pairwise (fun a b => key a ≤ key b) := by
  suffices h : ∀ acc : List α, acc.Pairwise (fun a b => key a ≤ key b) →
      (l.foldl (fun acc x => stInsert key x acc) acc).Pairwise (fun a b => key a ≤ key b) by
    exact h [] (by simp)
  induction l with
  | nil => intro acc hacc; simpa using hacc
  | cons x xs ih =>
    intro acc hacc
    exact ih (stInsert key x acc) (pairwise_stInsert key x acc hacc)

/-! ## Group bag accounting -/

theorem keys_pushTo (gs : Groups) (k : String) (i : ImageInput) :
    (pushTo gs k i).map Prod.fst = gs.map Prod.fst := by
  induction gs with
  | nil => rfl
  | cons p ps ih =>
    by_cases hk : p.1 == k
    · simp [pushTo, hk]
    · simp [pushTo, hk, ih]

theorem hasKey_pushTo (gs : Groups) (k k' : String) (i : ImageInput) :
    hasKey (pushTo gs k i) k' = hasKey gs k' := by
  induction gs with
  | nil => rfl
  | cons p ps ih =>
    by_cases hk : p.1 == k
    · simp [pushTo, hk, hasKey]
    · have h' : (pushTo ps k i).any (fun p => p.1 == k') = ps.any (fun p => p.1 == k') := by
        simpa [hasKey] using ih
      simp [pushTo, hk, hasKey, List.any_cons, h']

theorem groupsBag_cons (p : String × List ImageInput) (ps : Groups) :
    groupsBag (p :: ps) = (p.2 : Multiset ImageInput) + groupsBag ps := by
  simp [groupsBag]

theorem groupsBag_append (gs gs' : Groups) :
    groupsBag (gs ++ gs') = groupsBag gs + groupsBag gs' := by
  simp [groupsBag]

theorem groupsBag_pushTo (gs : Groups) (k : String) (i : ImageInput)
    (h : hasKey gs k = true) :
    groupsBag (pushTo gs k i) = groupsBag gs + {i} := by
  induction gs with
  | nil => simp [hasKey] at h
  | cons p ps ih =>
    by_cases hk : p.1 == k
    · simp only [pushTo, if_pos hk, groupsBag_cons]
      rw [← Multiset.coe_add, Multiset.coe_singleton, add_right_comm]
    · have h' : hasKey ps k = true := by
        simpa [hasKey, List.any_cons, hk] using h
      simp only [pushTo, if_neg hk, groupsBag_cons, ih h']
      rw [← add_assoc]

theorem hasKey_pushImage (gs : Groups) (i : ImageInput) (k : String) :
    hasKey (pushImage gs i) k = hasKey gs k := by
  simp only [pushImage]
  split
  · exact hasKey_pushTo gs _ k i
  · exact hasKey_pushTo gs _ k i

theorem groupsBag_pushImage (gs : Groups) (i : ImageInput)
    (h : hasKey gs "other" = true) :
    groupsBag (pushImage gs i) = groupsBag gs + {i} := by
  simp only [pushImage]
  split
  · exact groupsBag_pushTo gs _ i (by assumption)
  · exact groupsBag_pushTo gs _ i h

theorem groupsBag_foldl_pushImage (l : List ImageInput) (gs : Groups)
    (h : hasKey gs "other" = true) :
    groupsBag (l.foldl pushImage gs) = groupsBag gs + (l : Multiset ImageInput) := by
  induction l generalizing gs with
  | nil => simp
  | cons x xs ih =>
    rw [List.foldl_cons, ih (pushImage gs x) (by rw [hasKey_pushImage]; exact h),
      groupsBag_pushImage gs x h, add_assoc, Multiset.singleton_add, ← Multiset.cons_coe]

theorem removeEmptyGroups_cons (p : String × List ImageInput) (ps : Groups) :
    removeEmptyGroups (p :: ps) =
      if (!p.2.isEmpty || p.1 == "other") = true then p :: removeEmptyGroups ps
      else removeEmptyGroups ps := by
  simp [removeEmptyGroups, List.filter_cons]

theorem groupsBag_removeEmptyGroups (gs : Groups) :
    groupsBag (removeEmptyGroups gs) = groupsBag gs := by
  induction gs with
  | nil => rfl
  | cons p ps ih =>
    rw [removeEmptyGroups_cons]
    split
    · rw [groupsBag_cons, groupsBag_cons, ih]
    · next hcond =>
      have h2 : p.2 = [] := by
        cases hp2 : p.2 with
        | nil => rfl
        | cons y ys => rw [hp2] at hcond; simp at hcond
      rw [groupsBag_cons, h2, ih]
      simp

theorem groupsBag_deleteKey (gs : Groups) (k : String) :
    groupsBag gs =
      groupsBag (deleteKey gs k) + (((lookupGroup gs k).getD []) : Multiset ImageInput) := by
  induction gs with
  | nil => simp [deleteKey, lookupGroup, groupsBag]
  | cons p ps ih =>
    by_cases hk : (p.1 == k) = true
    · simp only [deleteKey, if_pos hk, lookupGroup, groupsBag_cons, Option.getD_some]
      rw [add_comm]
    · simp only [deleteKey, if_neg hk, lookupGroup, groupsBag_cons, ih]
      rw [← add_assoc]

theorem groupsBag_pushLiving (gs : Groups) (i : ImageInput) :
    groupsBag (pushLiving gs i) = groupsBag gs + {i} := by
  unfold pushLiving
  split
  · exact groupsBag_pushTo gs _ i (by assumption)
  · rw [groupsBag_append]
    simp [groupsBag]

theorem groupsBag_redistGo (imgs : List ImageInput) (gs : Groups) (names : List String)
    (h : ∀ n ∈ names, hasKey gs n = true) :
    groupsBag (redistGo gs names imgs) = groupsBag gs + (imgs : Multiset ImageInput) := by
  induction imgs generalizing gs names with
  | nil => simp [redistGo]
  | cons img rest ih =>
    cases names with
    | nil =>
      simp only [redistGo]
      rw [ih (pushLiving gs img) [] (by intro n hn; cases hn), groupsBag_pushLiving,
        add_assoc, Multiset.singleton_add, ← Multiset.cons_coe]
    | cons r rs =>
      simp only [redistGo]
      have hr : hasKey gs r = true := h r (by simp)
      have h' : ∀ n ∈ stableSortBy (groupLen (pushTo gs r img)) (r :: rs),
          hasKey (pushTo gs r img) n = true := by
        intro n hn
        rw [hasKey_pushTo]
        exact h n ((mem_stableSortBy _ n _).mp hn)
      rw [ih _ _ h', groupsBag_pushTo gs r img hr, add_assoc, Multiset.singleton_add,
        ← Multiset.cons_coe]

theorem hasKey_of_mem {gs : Groups} {p : String × List ImageInput} (hp : p ∈ gs) :
    hasKey gs p.1 = true := by
  simp only [hasKey, List.any_eq_true]
  exact ⟨p, hp, by simp⟩

theorem groupsBag_groupImagesByRoom (images : List ImageInput) :
    groupsBag (groupImagesByRoom images) = (images : Multiset ImageInput) := by
  have h0 : hasKey initialRoomGroups "other" = true := by decide
  have hinit : groupsBag initialRoomGroups = 0 := rfl
  have hbag : groupsBag (removeEmptyGroups (images.foldl pushImage initialRoomGroups)) =
      (images : Multiset ImageInput) := by
    rw [groupsBag_removeEmptyGroups, groupsBag_foldl_pushImage images initialRoomGroups h0,
      hinit, zero_add]
  simp only [groupImagesByRoom]
  split
  · exact hbag
  · next hne =>
    simp only [redistributeOtherImages]
    rw [groupsBag_redistGo]
    · have hd := groupsBag_deleteKey
        (removeEmptyGroups (images.foldl pushImage initialRoomGroups)) "other"
      rw [← hd]
      exact hbag
    · intro n hn
      rcases List.mem_map.mp hn with ⟨p, hp, rfl⟩
      have hp2 : p ∈ deleteKey (removeEmptyGroups (images.foldl pushImage initialRoomGroups))
          "other" := by
        have hp3 := (mem_stableSortBy _ p _).mp hp
        exact List.mem_of_mem_filter hp3
      exact hasKey_of_mem hp2


/-! ## Scene bag accounting (createScenes) -/

theorem sceneBag_cons (s : Scene) (l : List Scene) :
    sceneBag (s :: l) = (s.images : Multiset ImageInput) + sceneBag l := by
  simp [sceneBag]

theorem sceneBag_append (a b : List Scene) :
    sceneBag (a ++ b) = sceneBag a + sceneBag b := by
  simp [sceneBag]

theorem sceneBag_congr {a b : List Scene}
    (h : a.map Scene.images = b.map Scene.images) : sceneBag a = sceneBag b := by
  simp only [sceneBag, h]

theorem flatten_chunks (l : List ImageInput) (ips : ℕ) (n : ℕ) :
    ((List.range n).map (fun i => (l.drop (i * ips)).take ips)).flatten = l.take (n * ips) := by
  induction n with
  | zero => simp
  | succ m ih =>
    rw [List.range_succ, List.map_append, List.flatten_append, ih, Nat.succ_mul, List.take_add]
    simp

theorem ceilDiv_mul_ge (len sn : ℕ) (h : 0 < sn) : len ≤ sn * ((len + sn - 1) / sn) := by
  have hm := Nat.div_add_mod (len + sn - 1) sn
  have hlt := Nat.mod_lt (len + sn - 1) h
  omega

theorem sceneBag_createRoomScenes (room : String) (images : List ImageInput)
    (timing : TimingConstraints) :
    sceneBag (createRoomScenes room images timing) = (images : Multiset ImageInput) := by
  simp only [createRoomScenes]
  split
  · next hcond =>
    have hlen : 4 < images.length := by
      simp only [Bool.and_eq_true, decide_eq_true_eq] at hcond
      exact hcond.1
    have hsnpos : 0 < (images.length + 2) / 3 := by
      apply Nat.div_pos <;> omega
    have hcover : images.length ≤
        ((images.length + 2) / 3) *
          ((images.length + (images.length + 2) / 3 - 1) / ((images.length + 2) / 3)) :=
      ceilDiv_mul_ge images.length ((images.length + 2) / 3) hsnpos
    simp only [sceneBag, List.map_map]
    have hc : (Scene.images ∘ fun i =>
        ({ id := room ++ "_" ++ toString (i + 1)
           room := room
           images := (images.drop
             (i * ((images.length + (images.length + 2) / 3 - 1) / ((images.length + 2) / 3)))).take
             ((images.length + (images.length + 2) / 3 - 1) / ((images.length + 2) / 3))
           duration := timing.idealSegmentDuration
           type := SceneType.veo
           description := generateSceneDescription room i ((images.length + 2) / 3)
           focusPoints := generateFocusPoints room i } : Scene)) =
        fun i => (images.drop
            (i * ((images.length + (images.length + 2) / 3 - 1) / ((images.length + 2) / 3)))).take
            ((images.length + (images.length + 2) / 3 - 1) / ((images.length + 2) / 3)) := rfl
    rw [hc, flatten_chunks, List.take_of_length_le hcover]
  · simp [sceneBag]

theorem createScenes_cons (p : String × List ImageInput) (ps : Groups)
    (timing : TimingConstraints) :
    createScenes (p :: ps) timing =
      (if p.2.isEmpty then [] else createRoomScenes p.1 p.2 timing) ++ createScenes ps timing := by
  simp [createScenes]

theorem sceneBag_createScenes (gs : Groups) (timing : TimingConstraints) :
    sceneBag (createScenes gs timing) = groupsBag gs := by
  induction gs with
  | nil => rfl
  | cons p ps ih =>
    rw [createScenes_cons, sceneBag_append, groupsBag_cons, ih]
    congr 1
    split
    · next hemp =>
      have h2 : p.2 = [] := by simpa [List.isEmpty_iff] using hemp
      simp [h2, sceneBag]
    · exact sceneBag_createRoomScenes p.1 p.2 timing

/-! ## Scene bag through the optimization passes -/

theorem sceneBag_stInsert (key : Scene → ℕ) (x : Scene) (l : List Scene) :
    sceneBag (stInsert key x l) = (x.images : Multiset ImageInput) + sceneBag l := by
  induction l with
  | nil => simp [stInsert, sceneBag]
  | cons y ys ih =>
    by_cases h : key x < key y
    · simp [stInsert, h, sceneBag_cons]
    · simp only [stInsert, if_neg h, sceneBag_cons, ih]
      rw [add_left_comm]

theorem sceneBag_stableSortBy (key : Scene → ℕ) (l : List Scene) :
    sceneBag (stableSortBy key l) = sceneBag l := by
  suffices h : ∀ acc : List Scene,
      sceneBag (l.foldl (fun acc x => stInsert key x acc) acc) = sceneBag acc + sceneBag l by
    have := h []
    simpa [stableSortBy, sceneBag] using this
  induction l with
  | nil => intro acc; simp [sceneBag]
  | cons x xs ih =>
    intro acc
    rw [List.foldl_cons, ih, sceneBag_stInsert, sceneBag_cons]
    abel

theorem assignTypes_map_images (opts : ScenePlannerOptions) (l : List Scene) (used : ℕ) :
    ((assignTypes opts l used).1).map Scene.images = l.map Scene.images := by
  induction l generalizing used with
  | nil => rfl
  | cons s ss ih =>
    simp only [assignTypes]
    split
    · simp [ih]
    · simp [ih]

theorem assignTypes_map_room (opts : ScenePlannerOptions) (l : List Scene) (used : ℕ) :
    ((assignTypes opts l used).1).map Scene.room = l.map Scene.room := by
  induction l generalizing used with
  | nil => rfl
  | cons s ss ih =>
    simp only [assignTypes]
    split
    · simp [ih]
    · simp [ih]

theorem assignTypes_countVeo_le (opts : ScenePlannerOptions) (l : List Scene) (used : ℕ) :
    ((assignTypes opts l used).1.filter (fun s => s.type = SceneType.veo)).length ≤
      opts.maxVeoSegments - used := by
  induction l generalizing used with
  | nil => simp [assignTypes]
  | cons s ss ih =>
    simp only [assignTypes]
    split
    · next hcond =>
      have hused : used < opts.maxVeoSegments := by
        simp only [Bool.and_eq_true, decide_eq_true_eq] at hcond
        exact hcond.1
      have ihh := ih (used + 1)
      simp only [List.filter_cons]
      simp only [decide_eq_true_eq]
      rw [if_pos trivial]
      simp only [List.length_cons]
      omega
    · next hcond =>
      have ihh := ih used
      simp only [List.filter_cons]
      simp only [decide_eq_true_eq]
      rw [if_neg (by simp)]

      exact ihh

theorem adjust_map_images (l : List Scene) (t : ℚ) :
    (adjustSceneDurations l t).map Scene.images = l.map Scene.images := by
  simp only [adjustSceneDurations, List.map_map]
  congr 1
  funext s
  by_cases h : s.type = SceneType.veo <;> simp [h]

theorem adjust_map_room (l : List Scene) (t : ℚ) :
    (adjustSceneDurations l t).map Scene.room = l.map Scene.room := by
  simp only [adjustSceneDurations, List.map_map]
  congr 1
  funext s
  by_cases h : s.type = SceneType.veo <;> simp [h]

theorem adjust_map_type (l : List Scene) (t : ℚ) :
    (adjustSceneDurations l t).map Scene.type = l.map Scene.type := by
  simp only [adjustSceneDurations, List.map_map]
  congr 1
  funext s
  by_cases h : s.type = SceneType.veo <;> simp [h]


/-! ## The optimization passes -/

theorem optimizedCore_map_images (opts : ScenePlannerOptions) (scenes : List Scene)
    (timing : TimingConstraints) :
    (optimizedCore opts scenes timing).map Scene.images =
      (stableSortBy (fun s => priorityIdx s.room) scenes).map Scene.images := by
  simp only [optimizedCore]
  split
  · rw [adjust_map_images, assignTypes_map_images]
  · rw [assignTypes_map_images]

theorem optimizedCore_map_room (opts : ScenePlannerOptions) (scenes : List Scene)
    (timing : TimingConstraints) :
    (optimizedCore opts scenes timing).map Scene.room =
      (stableSortBy (fun s => priorityIdx s.room) scenes).map Scene.room := by
  simp only [optimizedCore]
  split
  · rw [adjust_map_room, assignTypes_map_room]
  · rw [assignTypes_map_room]

theorem sceneBag_optimizedCore (opts : ScenePlannerOptions) (scenes : List Scene)
    (timing : TimingConstraints) :
    sceneBag (optimizedCore opts scenes timing) = sceneBag scenes := by
  rw [sceneBag_congr (optimizedCore_map_images opts scenes timing), sceneBag_stableSortBy]

theorem countVeo_congr {a b : List Scene} (h : a.map Scene.type = b.map Scene.type) :
    (a.filter (fun s => s.type = SceneType.veo)).length =
      (b.filter (fun s => s.type = SceneType.veo)).length := by
  have key : ∀ l : List Scene, (l.filter (fun s => s.type = SceneType.veo)).length =
      ((l.map Scene.type).filter (fun t => t = SceneType.veo)).length := by
    intro l
    induction l with
    | nil => rfl
    | cons s ss ih =>
      by_cases hs : s.type = SceneType.veo
      · simp [List.filter_cons, hs, ih]
      · simp [List.filter_cons, hs, ih]
  rw [key a, key b, h]

theorem optimizedCore_countVeo_le (opts : ScenePlannerOptions) (scenes : List Scene)
    (timing : TimingConstraints) :
    ((optimizedCore opts scenes timing).filter (fun s => s.type = SceneType.veo)).length ≤
      opts.maxVeoSegments := by
  simp only [optimizedCore]
  split
  · rw [countVeo_congr (adjust_map_type _ _)]
    have h := assignTypes_countVeo_le opts (stableSortBy (fun s => priorityIdx s.room) scenes) 0
    omega
  · have h := assignTypes_countVeo_le opts (stableSortBy (fun s => priorityIdx s.room) scenes) 0
    omega

theorem optimizedCore_pairwise (opts : ScenePlannerOptions) (scenes : List Scene)
    (timing : TimingConstraints) :
    (optimizedCore opts scenes timing).Pairwise
      (fun a b => priorityIdx a.room ≤ priorityIdx b.room) := by
  have hs : (stableSortBy (fun s => priorityIdx s.room) scenes).Pairwise
      (fun a b => priorityIdx a.room ≤ priorityIdx b.room) :=
    pairwise_stableSortBy _ scenes
  have h1 : ((stableSortBy (fun s => priorityIdx s.room) scenes).map Scene.room).Pairwise
      (fun a b => priorityIdx a ≤ priorityIdx b) := List.pairwise_map.mpr hs
  rw [← optimizedCore_map_room opts scenes timing] at h1
  exact (@List.pairwise_map Scene String Scene.room (fun a b => priorityIdx a ≤ priorityIdx b)
    (optimizedCore opts scenes timing)).mp h1

/-! ## The filler pass -/

theorem addFillerScenes_eq_of_nil (l : List Scene) (t : ℚ)
    (hm : l.filter (fun s => s.images.length > 1) = []) :
    addFillerScenes l t = l := by
  simp only [addFillerScenes, hm]

theorem addFillerScenes_eq_of_head (l : List Scene) (t : ℚ) (src : Scene) (rest : List Scene)
    (hm : l.filter (fun s => s.images.length > 1) = src :: rest) :
    addFillerScenes l t = if t > 3 then l ++ [mkFillerScene src t] else l := by
  simp only [addFillerScenes, hm]

theorem addFillerScenes_cases (l : List Scene) (t : ℚ) :
    addFillerScenes l t = l ∨
      ∃ src, src ∈ l ∧ 1 < src.images.length ∧
        addFillerScenes l t = l ++ [mkFillerScene src t] := by
  cases hm : l.filter (fun s => s.images.length > 1) with
  | nil => exact Or.inl (addFillerScenes_eq_of_nil l t hm)
  | cons src rest =>
    have hmem : src ∈ l.filter (fun s => s.images.length > 1) := by
      rw [hm]; exact List.mem_cons_self src rest
    have hsrc1 : src ∈ l := List.mem_of_mem_filter hmem
    have hsrc2 : 1 < src.images.length := by
      have := List.of_mem_filter hmem
      simpa using this
    by_cases ht : t > 3
    · exact Or.inr ⟨src, hsrc1, hsrc2, by
        rw [addFillerScenes_eq_of_head l t src rest hm, if_pos ht]⟩
    · exact Or.inl (by rw [addFillerScenes_eq_of_head l t src rest hm, if_neg ht])

theorem optimizeScenes_decomp (opts : ScenePlannerOptions) (scenes : List Scene)
    (timing : TimingConstraints) :
    ∃ fill : List Scene, fill.length ≤ 1 ∧
      optimizeScenes opts scenes timing = optimizedCore opts scenes timing ++ fill ∧
      ∀ s ∈ fill, s.type = SceneType.kenburns ∧
        ∃ src, src ∈ optimizedCore opts scenes timing ∧ 1 < src.images.length ∧
          s.images = [src.images.getLastD defaultImage] := by
  simp only [optimizeScenes]
  split
  · rcases addFillerScenes_cases (optimizedCore opts scenes timing)
        (timing.availableContentTime - preAdjustTotal opts scenes) with h | ⟨src, hsrc, hlen, h⟩
    · refine ⟨[], by simp, by rw [h, List.append_nil], ?_⟩
      intro s hs
      cases hs
    · refine ⟨[mkFillerScene src (timing.availableContentTime - preAdjustTotal opts scenes)],
        by simp, h, ?_⟩
      intro s hs
      rw [List.mem_singleton] at hs
      subst hs
      exact ⟨rfl, src, hsrc, hlen, rfl⟩
  · refine ⟨[], by simp, by rw [List.append_nil], ?_⟩
    intro s hs
    cases hs

theorem getLastD_mem_of_ne_nil {α : Type} : ∀ (l : List α) (d : α), l ≠ [] → l.getLastD d ∈ l
  | [], _, h => absurd rfl h
  | [x], d, _ => by simp [List.getLastD]
  | x :: y :: ys, d, _ => by
      rw [List.getLastD_cons]
      exact List.mem_cons_of_mem x (getLastD_mem_of_ne_nil (y :: ys) x (by simp))

theorem addFillerScenes_nil (t : ℚ) : addFillerScenes [] t = [] := rfl

theorem optimizeScenes_nil (opts : ScenePlannerOptions) (timing : TimingConstraints) :
    optimizeScenes opts [] timing = [] := by
  have hc : optimizedCore opts [] timing = [] := by
    simp only [optimizedCore, stableSortBy, List.foldl_nil]
    split <;> rfl
  simp only [optimizeScenes, hc]
  split
  · exact addFillerScenes_nil _
  · rfl

/-! # Claim theorems: scene planner -/

set_option maxRecDepth 100000

/-- C1 (code evaluated at the failing input): the claim demands that the
ScenePlan's `totalDuration` lie within plus-or-minus 10 percent of
`targetSeconds` whenever `targetSeconds / roomCount ≥ minSegmentDuration`.
On the spec's own section-8 scenario — 14 images across the 7 known rooms,
`targetSeconds = 90`, defaults (so 90/7 ≥ 4 holds) — `planScenes` returns
`totalDuration = 62`, below the claimed lower bound `81 = (9/10)·90`: the
per-technique duration clamps (veo capped at 8s) and the stale pre-adjustment
running total used by the filler pass make the target unreachable. -/
theorem c1_spec_scenario_misses_target :
    (planScenes specScenarioImages specScenarioConfig).totalDuration = 62 ∧
      (planScenes specScenarioImages specScenarioConfig).totalDuration < (9/10 : ℚ) * 90 :=
  of_decide_eq_true (by with_unfolding_all rfl)

/-- C2 (counterexample): called with an empty image list, `planScenes` does
not fail with an `InsufficientInputError` (no such error exists in the code);
it returns a plan — the empty plan. -/
theorem c2_empty_input_returns_empty_plan :
    planScenes [] { path := "tour.mp4", targetSeconds := 90 } =
      { scenes := [], totalDuration := 0, veoSegments := 0, kenBurnsSegments := 0 } :=
  of_decide_eq_true (by with_unfolding_all rfl)

/-- C2 (amended): `planScenes` never throws for any image list, the empty
list included: for every options record and every output configuration the
empty input yields the empty plan (zero scenes, `totalDuration` 0) rather
than an error.  (That nonempty inputs also always yield a plan is witnessed
by the embedding being a total function.) -/
theorem c2_planScenes_total_on_empty (opts : ScenePlannerOptions)
    (outputConfig : OutputConfig) :
    planScenesWith opts [] outputConfig =
      { scenes := [], totalDuration := 0, veoSegments := 0, kenBurnsSegments := 0 } := by
  have hg : groupImagesByRoom [] = [("other", [])] := rfl
  have hcs : ∀ timing : TimingConstraints, createScenes [("other", [])] timing = [] :=
    fun _ => rfl
  simp only [planScenesWith, hg, hcs, optimizeScenes_nil]
  rfl

/-- C3 (counterexample): for the input of two `living` images and
`targetSeconds = 100`, the filler pass reuses the last image of the living
scene, so image `b.jpg` occurs in two scenes — the plan's scenes are not a
partition of the input. -/
theorem c3_filler_duplicates_image :
    ((planScenes twoLivingImages longTargetConfig).scenes.map Scene.images).flatten.count
        (sampleImage "b.jpg" "living") = 2 :=
  of_decide_eq_true (by with_unfolding_all rfl)

/-- C3 (amended): for every input, the multiset of images over all scenes of
the returned plan equals the input images plus at most one extra occurrence,
and that extra occurrence (the filler scene's image) is itself one of the
input images: no image is dropped, and only the filler scene can duplicate
one. -/
theorem c3_images_conserved_up_to_one_filler (opts : ScenePlannerOptions)
    (images : List ImageInput) (outputConfig : OutputConfig) :
    ∃ extra : List ImageInput, extra.length ≤ 1 ∧ (∀ x ∈ extra, x ∈ images) ∧
      sceneBag (planScenesWith opts images outputConfig).scenes =
        (images : Multiset ImageInput) + (extra : Multiset ImageInput) := by
  set groups := groupImagesByRoom images with hgdef
  set timing := calculateTiming opts outputConfig groups.length with htdef
  set core := optimizedCore opts (createScenes groups timing) timing with hcdef
  have hcore : sceneBag core = (images : Multiset ImageInput) := by
    rw [hcdef, sceneBag_optimizedCore, sceneBag_createScenes, hgdef,
      groupsBag_groupImagesByRoom]
  rcases optimizeScenes_decomp opts (createScenes groups timing) timing with
    ⟨fill, hlen, heq, hprop⟩
  have hscenes : (planScenesWith opts images outputConfig).scenes = core ++ fill := by
    simp only [planScenesWith, buildScenePlan]
    exact heq
  cases fill with
  | nil =>
    refine ⟨[], by simp, by simp, ?_⟩
    rw [hscenes, List.append_nil, hcore]
    simp
  | cons f rest =>
    have hrest : rest = [] := by
      cases rest with
      | nil => rfl
      | cons g gs => simp at hlen
    subst hrest
    rcases hprop f (List.mem_singleton_self f) with ⟨htype, src, hsrc, hlen2, himg⟩
    have hne : src.images ≠ [] := by
      intro h0
      rw [h0] at hlen2
      simp at hlen2
    have hmem1 : src.images.getLastD defaultImage ∈ src.images :=
      getLastD_mem_of_ne_nil src.images defaultImage hne
    have hin : src.images.getLastD defaultImage ∈ images := by
      have h1 : src.images.getLastD defaultImage ∈ sceneBag core := by
        simp only [sceneBag, Multiset.mem_coe, List.mem_flatten]
        exact ⟨src.images, List.mem_map_of_mem Scene.images hsrc, hmem1⟩
      rw [hcore] at h1
      simpa using h1
    refine ⟨[src.images.getLastD defaultImage], by simp, ?_, ?_⟩
    · intro x hx
      rw [List.mem_singleton] at hx
      subst hx
      exact hin
    · rw [hscenes, sceneBag_append, hcore]
      congr 1
      simp [sceneBag, himg]

/-- C4 (confirmed): for every options record, image list and output
configuration, the number of scenes assigned the AI-synthesis technique
(`veo`) in the returned plan is at most `maxVeoSegments` (default 15): the
first pass assigns `veo` only while the cap allows, duration adjustment
preserves techniques, and the filler scene is always `kenburns`. -/
theorem c4_veo_cap_respected (opts : ScenePlannerOptions) (images : List ImageInput)
    (outputConfig : OutputConfig) :
    (planScenesWith opts images outputConfig).veoSegments ≤ opts.maxVeoSegments := by
  set groups := groupImagesByRoom images with hgdef
  set timing := calculateTiming opts outputConfig groups.length with htdef
  set core := optimizedCore opts (createScenes groups timing) timing with hcdef
  rcases optimizeScenes_decomp opts (createScenes groups timing) timing with
    ⟨fill, hlen, heq, hprop⟩
  have hv : (planScenesWith opts images outputConfig).veoSegments =
      ((core ++ fill).filter (fun s => s.type = SceneType.veo)).length := by
    simp only [planScenesWith, buildScenePlan]
    rw [heq]
  rw [hv, List.filter_append, List.length_append]
  have h1 : (core.filter (fun s => s.type = SceneType.veo)).length ≤ opts.maxVeoSegments :=
    optimizedCore_countVeo_le opts (createScenes groups timing) timing
  have h2 : (fill.filter (fun s => s.type = SceneType.veo)).length = 0 := by
    cases fill with
    | nil => rfl
    | cons f rest =>
      have hrest : rest = [] := by
        cases rest with
        | nil => rfl
        | cons g gs => simp at hlen
      subst hrest
      have hf := (hprop f (List.mem_singleton_self f)).1
      simp [List.filter_cons, hf]
  omega

/-- C10 (counterexample): with two `bedroom` images and one `entry` image at
`targetSeconds = 100`, the returned plan's room sequence is
`[bedroom, entry, bedroom]` — the filler scene is appended after the sorted
scenes regardless of priority, so the plan is *not* ordered by the fixed
Veo-priority order (a `bedroom` scene follows the `entry` scene although
bedroom has higher priority). -/
theorem c10_filler_breaks_priority_order :
    (planScenes bedroomEntryImages longTargetConfig).scenes.map Scene.room =
        ["bedroom", "entry", "bedroom"] ∧
      ¬ (["bedroom", "entry", "bedroom"].Pairwise
        (fun a b : String => priorityIdx a ≤ priorityIdx b)) :=
  of_decide_eq_true (by with_unfolding_all rfl)

/-- C10 (amended): the plan's scenes are the priority-sorted (stable, so ties
keep grouping order) scenes followed by at most one filler scene: the prefix
before the filler is pairwise ordered by the fixed Veo-priority index, which
in particular places every entry scene after every bedroom scene within that
prefix. -/
theorem c10_core_sorted_filler_appended (opts : ScenePlannerOptions)
    (images : List ImageInput) (outputConfig : OutputConfig) :
    ∃ core fill : List Scene,
      (planScenesWith opts images outputConfig).scenes = core ++ fill ∧
      fill.length ≤ 1 ∧
      core.Pairwise (fun a b => priorityIdx a.room ≤ priorityIdx b.room) := by
  set groups := groupImagesByRoom images with hgdef
  set timing := calculateTiming opts outputConfig groups.length with htdef
  rcases optimizeScenes_decomp opts (createScenes groups timing) timing with
    ⟨fill, hlen, heq, _⟩
  refine ⟨optimizedCore opts (createScenes groups timing) timing, fill, ?_, hlen,
    optimizedCore_pairwise opts (createScenes groups timing) timing⟩
  simp only [planScenesWith, buildScenePlan]
  exact heq

/-! ## Fixtures for the render-controller claims -/

def sampleOperation : VeoOperation :=
  { name := "projects/proj/locations/us-central1/operations/op1"
    done := true
    response := some { videos := [{ gcsUri := some "gs://bucket/video.mp4" }], predictions := [] }
    error := none }

def failedOperation : VeoOperation :=
  { name := "projects/proj/locations/us-central1/operations/op1"
    done := true
    response := none
    error := some { code := 8, message := "quota exceeded for project" } }

/-! # Claim theorems: render job controller -/

theorem pollGo_attempts_le (replies : ℕ → PollReply) :
    ∀ (fuel attempts : ℕ), (pollGo replies fuel attempts).2 ≤ attempts + fuel := by
  intro fuel
  induction fuel with
  | zero => intro att; simp [pollGo]
  | succ n ih =>
    intro att
    simp only [pollGo]
    cases hr : replies att with
    | httpError s => simp
    | ok op =>
      cases hd : op.done with
      | true =>
        cases he : op.error with
        | some e => simp [hd, he]
        | none => simp [hd, he]
      | false =>
        simp only [hd, Bool.false_eq_true, if_false]
        have := ih (att + 1)
        omega

/-- C5 (counterexample): the delay the code awaits is the base backoff plus a
uniform jitter in [0, 1000); with jitter 999 after attempt 1 and jitter 0
after attempt 2 the awaited delay *decreases* (2250 < 2499) although the
attempt number increases, so the delay as computed — base plus jitter — is
not non-decreasing in the attempt number. -/
theorem c5_jitter_breaks_delay_monotonicity :
    (0:ℚ) ≤ 999 ∧ (999:ℚ) < 1000 ∧ (0:ℚ) ≤ 0 ∧ (0:ℚ) < 1000 ∧
      pollDelayWithJitter 2 0 < pollDelayWithJitter 1 999 := by
  norm_num [pollDelayWithJitter, pollBaseDelay, min_def]

/-- C5 (amended): `pollOperation` performs at most `maxAttempts` poll
requests before returning or failing, and the *base* backoff delay
`min(1000·1.5^attempt, 30000)` is non-decreasing in the attempt number and
never exceeds the 30-second cap; only the added random jitter can make the
actually awaited delay decrease between consecutive attempts. -/
theorem c5_poll_bounded_and_base_backoff_monotone (replies : ℕ → PollReply)
    (maxAttempts : ℕ) (a b : ℕ) (hab : a ≤ b) :
    (pollOperation replies maxAttempts).2 ≤ maxAttempts ∧
      pollBaseDelay a ≤ pollBaseDelay b ∧ pollBaseDelay a ≤ 30000 := by
  refine ⟨?_, ?_, min_le_right _ _⟩
  · have h := pollGo_attempts_le replies maxAttempts 0
    simpa [pollOperation] using h
  · unfold pollBaseDelay
    apply min_le_min ?_ le_rfl
    apply mul_le_mul_of_nonneg_left ?_ (by norm_num : (0:ℚ) ≤ 1000)
    exact pow_le_pow_right₀ (by norm_num : (1:ℚ) ≤ 3/2) hab

/-- Witness for C5 (amended) at a concrete reply stream and attempt pair. -/
theorem c5_poll_bounded_witness :
    (pollOperation (fun _ => PollReply.httpError 500) 60).2 ≤ 60 ∧
      pollBaseDelay 3 ≤ pollBaseDelay 5 ∧ pollBaseDelay 3 ≤ 30000 :=
  c5_poll_bounded_and_base_backoff_monotone (fun _ => PollReply.httpError 500) 60 3 5
    (by norm_num)

theorem withRetryGo_attempts_le {α : Type} (outcomes : ℕ → Except String α) (maxRetries : ℕ) :
    ∀ (fuel attempt : ℕ),
      (withRetryGo outcomes maxRetries fuel attempt).2 ≤ attempt - 1 + fuel := by
  intro fuel
  induction fuel with
  | zero => intro att; simp [withRetryGo]
  | succ n ih =>
    intro att
    simp only [withRetryGo]
    cases ho : outcomes (att - 1) with
    | ok v => simp; omega
    | error e =>
      by_cases hnr : nonRetryableMessage e = true
      · simp [hnr]; omega
      · by_cases hlt : att < maxRetries
        · simp only [hnr, if_false, hlt, if_true, Bool.false_eq_true]
          have := ih (att + 1)
          omega
        · simp only [hnr, if_false, hlt, Bool.false_eq_true]
          omega

theorem withRetry_nonretryable_first {α : Type} (outcomes : ℕ → Except String α) (e : String)
    (h0 : outcomes 0 = Except.error e) (hnr : nonRetryableMessage e = true) :
    withRetry outcomes 3 = (Except.error e, 1) := by
  simp [withRetry, withRetryGo, h0, hnr]

/-- C6 (counterexample): the submission step is *not* wrapped in the retry
policy.  With a transient `503` on the first attempt and success on the
second, the in-class policy (`withRetry`, never invoked by `generateClip`)
would retry and return the operation after two attempts, but `generateClip`
raises the submit failure immediately. -/
theorem c6_submission_fails_where_policy_would_retry :
    withRetry (fun n => if n = 0 then
        (Except.error "503 Service Unavailable" : Except String VeoOperation)
      else Except.ok sampleOperation) 3 = (Except.ok sampleOperation, 2) ∧
    generateClip (SubmitReply.httpError 503 "Service Unavailable")
        (fun _ => PollReply.ok sampleOperation) { duration := 8, prompt := "interior" } =
      Except.error (VeoFailure.submitFailed 503 "Service Unavailable") :=
  ⟨by with_unfolding_all rfl, by with_unfolding_all rfl⟩

/-- C6 (amended): `VeoClient.withRetry` does implement the stated bounded
policy — at most 3 attempts; a first-attempt error containing `quota`,
`permission` or `invalid` is raised after exactly one attempt with no retry;
the backoff base for re-running after attempt 1 is 1000ms — but the render
submission in `generateClip` is not wrapped in it: the submission is
attempted exactly once and a submit failure propagates immediately. -/
theorem c6_retry_policy_never_wraps_submission {α : Type} (outcomes : ℕ → Except String α)
    (e : String) (s : ℕ) (b : String) (polls : ℕ → PollReply) (params : VeoParams) :
    (withRetry outcomes 3).2 ≤ 3 ∧
    (outcomes 0 = Except.error e → nonRetryableMessage e = true →
      withRetry outcomes 3 = (Except.error e, 1)) ∧
    retryBaseDelay 1000 1 = 1000 ∧
    generateClip (SubmitReply.httpError s b) polls params =
      Except.error (VeoFailure.submitFailed s b) ∧
    submissionAttempts = 1 := by
  refine ⟨?_, withRetry_nonretryable_first outcomes e, by norm_num [retryBaseDelay], rfl, rfl⟩
  have h := withRetryGo_attempts_le outcomes 3 3 1
  simp only [withRetry]
  omega

/-- Witness for C6 (amended): a concrete quota error on the first attempt. -/
theorem c6_retry_policy_witness :
    (withRetry (fun _ => (Except.error "quota exceeded for project" : Except String ℕ)) 3).2 ≤ 3 ∧
    withRetry (fun _ => (Except.error "quota exceeded for project" : Except String ℕ)) 3 =
      (Except.error "quota exceeded for project", 1) ∧
    retryBaseDelay 1000 1 = 1000 ∧
    generateClip (SubmitReply.httpError 429 "rate limited")
        (fun _ => PollReply.ok sampleOperation) { duration := 8, prompt := "interior" } =
      Except.error (VeoFailure.submitFailed 429 "rate limited") ∧
    submissionAttempts = 1 := by
  have h := c6_retry_policy_never_wraps_submission
    (fun _ => (Except.error "quota exceeded for project" : Except String ℕ))
    "quota exceeded for project" 429 "rate limited"
    (fun _ => PollReply.ok sampleOperation) { duration := 8, prompt := "interior" }
  exact ⟨h.1, h.2.1 rfl (of_decide_eq_true (by with_unfolding_all rfl)), h.2.2.1, h.2.2.2.1,
    h.2.2.2.2⟩

theorem pollGo_error_after (polls : ℕ → PollReply) (op : VeoOperation) (e : OpError)
    (hopdone : op.done = true) (herr : op.error = some e) :
    ∀ (n fuel att : ℕ), n < fuel →
      (∀ k < n, ∃ o : VeoOperation, polls (att + k) = PollReply.ok o ∧ o.done = false) →
      polls (att + n) = PollReply.ok op →
      pollGo polls fuel att =
        (Except.error (VeoFailure.operationFailed e.message), att + n + 1) := by
  intro n
  induction n with
  | zero =>
    intro fuel att hfuel hearly hdone
    cases fuel with
    | zero => omega
    | succ m =>
      simp only [pollGo]
      rw [show att + 0 = att from rfl] at hdone
      rw [hdone]
      simp [hopdone, herr]
  | succ k ih =>
    intro fuel att hfuel hearly hdone
    cases fuel with
    | zero => omega
    | succ m =>
      simp only [pollGo]
      rcases hearly 0 (by omega) with ⟨o, ho, hod⟩
      rw [show att + 0 = att from rfl] at ho
      rw [ho]
      simp only [hod, Bool.false_eq_true, if_false]
      have hearly2 : ∀ j < k, ∃ o : VeoOperation,
          polls (att + 1 + j) = PollReply.ok o ∧ o.done = false := by
        intro j hj
        rcases hearly (j + 1) (by omega) with ⟨o2, ho2, hod2⟩
        refine ⟨o2, ?_, hod2⟩
        rw [show att + 1 + j = att + (j + 1) from by omega]
        exact ho2
      have hdone2 : polls (att + 1 + k) = PollReply.ok op := by
        rw [show att + 1 + k = att + (k + 1) from by omega]
        exact hdone
      rw [show att + (k + 1) + 1 = att + 1 + k + 1 from by omega]
      exact ih m (att + 1) (by omega) hearly2 hdone2

/-- C7 (confirmed): when some poll reply reports `done = true` together with
an error payload (after any number of not-done replies, all within the
60-attempt budget), `generateClip` resolves to the `operationFailed` failure
carrying the service-provided message — it never returns a successful result,
so the download/processing path (`processResult`) is unreachable. -/
theorem c7_done_with_error_resolves_operationFailed (polls : ℕ → PollReply)
    (params : VeoParams) (submitOp op : VeoOperation) (e : OpError) (n : ℕ)
    (hn : n < 60)
    (hearly : ∀ k < n, ∃ o : VeoOperation, polls k = PollReply.ok o ∧ o.done = false)
    (hdone : polls n = PollReply.ok op) (hopdone : op.done = true)
    (herr : op.error = some e) :
    generateClip (SubmitReply.accepted submitOp) polls params =
      Except.error (VeoFailure.operationFailed e.message) := by
  have hpoll : pollGo polls 60 0 =
      (Except.error (VeoFailure.operationFailed e.message), 0 + n + 1) :=
    pollGo_error_after polls op e hopdone herr n 60 0 hn
      (by intro k hk; simpa using hearly k hk) (by simpa using hdone)
  simp only [generateClip, pollOperation, hpoll]

/-- Witness for C7: the very first poll reports done-with-error. -/
theorem c7_done_with_error_witness :
    generateClip (SubmitReply.accepted sampleOperation)
        (fun _ => PollReply.ok failedOperation) { duration := 8, prompt := "interior" } =
      Except.error (VeoFailure.operationFailed "quota exceeded for project") :=
  c7_done_with_error_resolves_operationFailed (fun _ => PollReply.ok failedOperation)
    { duration := 8, prompt := "interior" } sampleOperation failedOperation
    { code := 8, message := "quota exceeded for project" } 0 (by norm_num)
    (by intro k hk; omega) rfl rfl rfl

/-! # Claim theorems: Ken Burns parameter validation -/

/-- C8 (confirmed): for a Ken Burns request whose input image exists, if any
of duration, width, height or the frame rate is non-finite or non-positive,
generation fails with the invalid-parameters error before any external
process invocation is produced; conversely, with all four finite and
positive, validation never raises and a process invocation is produced. -/
theorem c8_kenburns_validation (params : KenBurnsParams) (fps : JSNum) :
    ((invalidParamNum params.duration = true ∨ invalidParamNum params.width = true ∨
        invalidParamNum params.height = true ∨ invalidParamNum fps = true) →
      ∃ w, generateKenBurns true params fps = Except.error (KBError.invalidParameters w)) ∧
    (invalidParamNum params.duration = false → invalidParamNum params.width = false →
      invalidParamNum params.height = false → invalidParamNum fps = false →
      generateKenBurns true params fps =
        Except.ok { input := params.imagePath, loopInput := true
                    inputDuration := params.duration
                    filter := { width := params.width, height := params.height }
                    fps := fps, output := params.outputPath }) := by
  constructor
  · intro h
    by_cases hd : invalidParamNum params.duration = true
    · exact ⟨"duration", by simp [generateKenBurns, buildFilter, hd]⟩
    · by_cases hw : invalidParamNum params.width = true
      · exact ⟨"dimensions", by simp [generateKenBurns, buildFilter, hd, hw]⟩
      · by_cases hh : invalidParamNum params.height = true
        · exact ⟨"dimensions", by simp [generateKenBurns, buildFilter, hd, hw, hh]⟩
        · have hf : invalidParamNum fps = true := by
            rcases h with h1 | h1 | h1 | h1
            · exact absurd h1 hd
            · exact absurd h1 hw
            · exact absurd h1 hh
            · exact h1
          exact ⟨"fps", by simp [generateKenBurns, buildFilter, hd, hw, hh, hf]⟩
  · intro hd hw hh hf
    simp [generateKenBurns, buildFilter, hd, hw, hh, hf]

/-- Witness for C8: a NaN duration is rejected; an all-positive request is
accepted. -/
theorem c8_kenburns_validation_witness :
    (∃ w, generateKenBurns true
        { imagePath := "room.jpg", outputPath := "room.mp4", duration := JSNum.nan
          width := JSNum.num 1920, height := JSNum.num 1080
          zoomDirection := none, panDirection := none } (JSNum.num 24) =
        Except.error (KBError.invalidParameters w)) ∧
    generateKenBurns true
        { imagePath := "room.jpg", outputPath := "room.mp4", duration := JSNum.num 6
          width := JSNum.num 1920, height := JSNum.num 1080
          zoomDirection := none, panDirection := none } (JSNum.num 24) =
      Except.ok { input := "room.jpg", loopInput := true
                  inputDuration := JSNum.num 6
                  filter := { width := JSNum.num 1920, height := JSNum.num 1080 }
                  fps := JSNum.num 24, output := "room.mp4" } := by
  constructor
  · exact (c8_kenburns_validation
      { imagePath := "room.jpg", outputPath := "room.mp4", duration := JSNum.nan
        width := JSNum.num 1920, height := JSNum.num 1080
        zoomDirection := none, panDirection := none } (JSNum.num 24)).1 (Or.inl rfl)
  · exact (c8_kenburns_validation
      { imagePath := "room.jpg", outputPath := "room.mp4", duration := JSNum.num 6
        width := JSNum.num 1920, height := JSNum.num 1080
        zoomDirection := none, panDirection := none } (JSNum.num 24)).2
      (of_decide_eq_true (by with_unfolding_all rfl))
      (of_decide_eq_true (by with_unfolding_all rfl))
      (of_decide_eq_true (by with_unfolding_all rfl))
      (of_decide_eq_true (by with_unfolding_all rfl))

/-! # Claim theorems: assembler audio handling -/

/-- C9 (confirmed): the assembler's audio handling is a function of the track
count.  Zero tracks: the mix is empty and the final mux carries no audio
stream at all.  One track: that track's own file is used as the audio input
(re-encoded at mux time).  Two or more: the mix filter chains every track
(effective gain `track.volume`, effective delay `round(1000·startTime)` ms
for non-negative start times) and mixes with the longest-input duration
policy, whose output duration is the maximum of the input durations. -/
theorem c9_audio_mix_by_track_count (t : AudioTrack) (tracks : List AudioTrack)
    (mixedPath : String) (ht : t.path ≠ "") :
    (createAudioMix [] = AudioMixResult.noAudio ∧
      createAudioMixPath [] mixedPath = "" ∧
      (combineVideoAndAudio (createAudioMixPath [] mixedPath)).audio = none) ∧
    (createAudioMix [t] = AudioMixResult.single t.path ∧
      (combineVideoAndAudio t.path).audio =
        some { inputPath := t.path, codec := "aac", bitrate := "192k" }) ∧
    (2 ≤ tracks.length →
      createAudioMix tracks = AudioMixResult.mixed (buildAudioMixFilter tracks) ∧
      (buildAudioMixFilter tracks).amixDuration = AmixDurationPolicy.longest ∧
      (buildAudioMixFilter tracks).amixInputs = tracks.length ∧
      (buildAudioMixFilter tracks).chains = tracks.map trackChain) ∧
    (∀ tr : AudioTrack, effVolume (trackChain tr) = tr.volume ∧
      (0 ≤ tr.startTime → effDelayMs (trackChain tr) = jsRound (tr.startTime * 1000))) ∧
    (∀ durations : List ℚ,
      amixOutputDuration AmixDurationPolicy.longest durations = durations.foldr max 0) := by
  refine ⟨⟨rfl, rfl, by
      rw [show createAudioMixPath [] mixedPath = "" from rfl]
      simp [combineVideoAndAudio]⟩,
    ⟨by simp [createAudioMix], by simp [combineVideoAndAudio, ht]⟩, ?_, ?_, fun _ => rfl⟩
  · intro h2
    have h0 : ¬ tracks.length = 0 := by omega
    have h1 : ¬ tracks.length = 1 := by omega
    exact ⟨by simp [createAudioMix, h0, h1], rfl, rfl, rfl⟩
  · intro tr
    constructor
    · by_cases hv : tr.volume = 1
      · simp [effVolume, trackChain, hv]
      · simp [effVolume, trackChain, hv]
    · intro hst
      by_cases hpos : tr.startTime > 0
      · simp [effDelayMs, trackChain, hpos]
      · have hz : tr.startTime = 0 := le_antisymm (not_lt.mp hpos) hst
        simp only [effDelayMs, trackChain, hpos, if_false, Option.getD_none, hz, jsRound]
        norm_num

/-- Witness for C9 at concrete tracks (one voiceover, two-track mix). -/
theorem c9_audio_mix_witness :
    (createAudioMix [] = AudioMixResult.noAudio ∧
      createAudioMixPath [] "mixed.mp3" = "" ∧
      (combineVideoAndAudio (createAudioMixPath [] "mixed.mp3")).audio = none) ∧
    (createAudioMix [voiceTrack] = AudioMixResult.single voiceTrack.path ∧
      (combineVideoAndAudio voiceTrack.path).audio =
        some { inputPath := voiceTrack.path, codec := "aac", bitrate := "192k" }) ∧
    createAudioMix [voiceTrack, musicTrack] =
      AudioMixResult.mixed (buildAudioMixFilter [voiceTrack, musicTrack]) := by
  have h := c9_audio_mix_by_track_count voiceTrack [voiceTrack, musicTrack] "mixed.mp3"
    (by simp [voiceTrack])
  exact ⟨h.1, h.2.1, (h.2.2.1 (by simp)).1⟩
end HomeTour
